import Mathlib

/-!
# Verification of MCPJungle's Tool Registry & Invocation Router

A shallow embedding of the Go sources of MCPJungle (the API handlers in
`internal/api`, the metrics helpers in `internal/metrics`) together with
spec-modelled definitions for the `mcpService` layer, whose implementation
is not part of the sources at hand.

Go strings are modelled as byte sequences (`List Nat`): Go's `len`,
slicing, `strings.Cut` and `strings.Contains` all operate on bytes.
-/

namespace MCPJungle

/-- A Go string, as its byte sequence. -/
abbrev GoStr := List Nat

/-- Byte sequence of an ASCII string literal (for ASCII characters the
UTF-8 byte equals the code point). -/
def gb (s : String) : GoStr := s.data.map Char.toNat

/-- The reserved separator `serverToolNameSep = "::"` from
`internal/api/mcp_tools.go`. -/
def serverToolNameSep : GoStr := gb "::"

/-- Embedding of Go `strings.Cut(s, sep)`: splits around the first
occurrence of `sep`, returning `(before, after, true)`, or `(s, "", false)`
when `sep` does not occur. -/
def stringsCut (s sep : GoStr) : GoStr × GoStr × Bool :=
  match s with
  | [] => if sep.isPrefixOf ([] : GoStr) then ([], [], true) else ([], [], false)
  | c :: rest =>
    if sep.isPrefixOf (c :: rest) then ([], (c :: rest).drop sep.length, true)
    else
      let r := stringsCut rest sep
      (c :: r.1, r.2.1, r.2.2)

/-- Embedding of `splitServerToolName` from `internal/api/mcp_tools.go`:
`strings.Cut(name, serverToolNameSep)`. -/
def splitServerToolName (name : GoStr) : GoStr × GoStr × Bool :=
  stringsCut name serverToolNameSep

/-- Embedding of Go `strings.Contains(s, substr)` (byte-level substring
search). -/
def stringsContains (s sub : GoStr) : Bool :=
  decide (sub <:+: s)


/-! ## Metrics helpers (`internal/metrics`, file with `boundString` / `getErrorType`) -/

/-- Byte-level embedding of Go `strings.ToLower` restricted to ASCII case
mapping (Go applies Unicode simple case folding rune-wise; on ASCII bytes —
which is all the classifier's patterns use — the two coincide, and
multi-byte UTF-8 sequences contain no byte in the ASCII uppercase range). -/
def stringsToLower (s : GoStr) : GoStr :=
  s.map fun b => if 65 ≤ b ∧ b ≤ 90 then b + 32 else b

/-- Constant `ErrorTypeTimeout`. -/
def ErrorTypeTimeout : GoStr := gb "timeout"
/-- Constant `ErrorTypeConnection`. -/
def ErrorTypeConnection : GoStr := gb "connection"
/-- Constant `ErrorTypePermission`. -/
def ErrorTypePermission : GoStr := gb "permission"
/-- Constant `ErrorTypeValidation`. -/
def ErrorTypeValidation : GoStr := gb "validation"
/-- Constant `ErrorTypeRegistration`. -/
def ErrorTypeRegistration : GoStr := gb "registration"
/-- Constant `ErrorTypeUnknown`. -/
def ErrorTypeUnknown : GoStr := gb "unknown"

/-- Embedding of `getErrorType` from the metrics package: normalizes an
error (modelled as `Option GoStr`, `none` being Go's nil error, `some msg`
an error whose `Error()` string is `msg`) into a small category set by
case-insensitive substring matching, in source order. -/
def getErrorType (err : Option GoStr) : GoStr :=
  match err with
  | none => gb "none"
  | some msg =>
    let errStr := stringsToLower msg
    if stringsContains errStr (gb "timeout") then ErrorTypeTimeout
    else if stringsContains errStr (gb "connection") then ErrorTypeConnection
    else if stringsContains errStr (gb "permission") then ErrorTypePermission
    else if stringsContains errStr (gb "not found") then gb "not_found"
    else if stringsContains errStr (gb "invalid") then gb "invalid"
    else if stringsContains errStr (gb "cancelled") then gb "cancelled"
    else ErrorTypeUnknown


/-- Embedding of `boundString(s, maxLen, fallback)` from the metrics
package: returns `fallback` for the empty string, the first `maxLen` bytes
when `s` is longer than `maxLen`, and `s` otherwise. -/
def boundString (s : GoStr) (maxLen : Nat) (fallback : GoStr) : GoStr :=
  if s = [] then fallback
  else if s.length > maxLen then s.take maxLen
  else s


/-- Label name constant `LabelMCPServerName = "mcp_server_name"`. -/
def LabelMCPServerName : GoStr := gb "mcp_server_name"
/-- Label name constant `LabelToolName = "tool_name"`. -/
def LabelToolName : GoStr := gb "tool_name"
/-- Label name constant `LabelStatus = "status"`. -/
def LabelStatus : GoStr := gb "status"
/-- Label name constant `LabelErrorType = "error_type"`. -/
def LabelErrorType : GoStr := gb "error_type"
/-- Label name constant `LabelEventType = "event_type"`. -/
def LabelEventType : GoStr := gb "event_type"
/-- Label name constant `LabelMCPMethod = "mcp_method"`. -/
def LabelMCPMethod : GoStr := gb "mcp_method"

/-- Type `MetricStatus` is a string type in the source. -/
abbrev MetricStatus := GoStr

/-- Constant `StatusSuccess`. -/
def StatusSuccess : MetricStatus := gb "success"
/-- Constant `StatusError`. -/
def StatusError : MetricStatus := gb "error"

/-- Constant `EventTypeRegistered`. -/
def EventTypeRegistered : GoStr := gb "registered"
/-- Constant `EventTypeDeregistered`. -/
def EventTypeDeregistered : GoStr := gb "deregistered"

/-- An OpenTelemetry attribute value (`attribute.String` / `attribute.Bool`
are the only constructors the metrics code uses). -/
inductive AttrValue where
  | str (s : GoStr)
  | boolean (b : Bool)
deriving DecidableEq

/-- An OpenTelemetry `attribute.KeyValue`. -/
structure AttrKV where
  key : GoStr
  value : AttrValue
deriving DecidableEq

/-- State of the `MCPMetrics` instruments, modelling each OTel instrument
as the sequence of recording events applied to it: a counter `Add` event
holds the attribute set (every add in the source has increment 1 except
`ToolAvailability`, which adds 0 or 1 and is therefore modelled with an
explicit value); a histogram `Record` event holds the attribute set and
the observed duration (elapsed time, an ambient input, modelled as a
`Nat`). -/
structure MCPMetricsData where
  toolInvocations : List (List AttrKV)
  toolLatency : List (List AttrKV × Nat)
  toolErrors : List (List AttrKV)
  requestsTotal : List (List AttrKV)
  requestLatency : List (List AttrKV × Nat)
  requestErrors : List (List AttrKV)
  serverRegistrations : List (List AttrKV)
  serverDeregistrations : List (List AttrKV)
  serverTransport : List (List AttrKV)
  toolAvailability : List (List AttrKV × Int)
  toolDiscovery : List (List AttrKV)
  errorsByType : List (List AttrKV)
deriving DecidableEq

/-- A possibly-nil `*MCPMetrics` receiver: `none` is Go's nil pointer. -/
abbrev MCPMetrics := Option MCPMetricsData

/-- The attribute set built by `RecordTool` before recording. -/
def recordToolAttrs (mcpServerName toolName : GoStr) (status : MetricStatus)
    (err : Option GoStr) : List AttrKV :=
  let attrs := [⟨LabelMCPServerName, .str (boundString mcpServerName 64 (gb "unknown"))⟩,
                ⟨LabelToolName, .str (boundString toolName 64 (gb "unknown"))⟩,
                ⟨LabelStatus, .str status⟩]
  match err with
  | some _ => attrs ++ [⟨LabelErrorType, .str (getErrorType err)⟩]
  | none => attrs

/-- Embedding of `(*MCPMetrics).RecordTool`: records a tool invocation,
its latency, and errors if any; a nil receiver returns immediately.
`elapsed` stands for `time.Since(started)`. -/
def RecordTool (m : MCPMetrics) (mcpServerName toolName : GoStr)
    (status : MetricStatus) (elapsed : Nat) (err : Option GoStr) : MCPMetrics :=
  match m with
  | none => none
  | some st =>
    let attrs := recordToolAttrs mcpServerName toolName status err
    let st := { st with toolInvocations := st.toolInvocations ++ [attrs],
                        toolLatency := st.toolLatency ++ [(attrs, elapsed)] }
    some (if status = StatusError
          then { st with toolErrors := st.toolErrors ++ [attrs] }
          else st)

/-- Embedding of `(*MCPMetrics).RecordRequest`: records an MCP request,
including latency and errors; a nil receiver returns immediately. -/
def RecordRequest (m : MCPMetrics) (mcpMethod : GoStr) (status : MetricStatus)
    (elapsed : Nat) (err : Option GoStr) : MCPMetrics :=
  match m with
  | none => none
  | some st =>
    let attrs := [AttrKV.mk LabelMCPMethod (.str (boundString mcpMethod 64 (gb "unknown"))),
                  AttrKV.mk LabelStatus (.str status)]
    let attrs := match err with
      | some _ => attrs ++ [⟨LabelErrorType, .str (getErrorType err)⟩]
      | none => attrs
    let st := { st with requestsTotal := st.requestsTotal ++ [attrs],
                        requestLatency := st.requestLatency ++ [(attrs, elapsed)] }
    some (if status = StatusError
          then { st with requestErrors := st.requestErrors ++ [attrs] }
          else st)

/-- Embedding of `(*MCPMetrics).RecordServerRegistration`; a nil receiver
returns immediately. -/
def RecordServerRegistration (m : MCPMetrics) (serverName : GoStr)
    (success : Bool) : MCPMetrics :=
  match m with
  | none => none
  | some st =>
    let attrs := [AttrKV.mk LabelMCPServerName (.str (boundString serverName 64 (gb "unknown"))),
                  AttrKV.mk (gb "success") (.boolean success)]
    some { st with serverRegistrations := st.serverRegistrations ++ [attrs] }

/-- Embedding of `(*MCPMetrics).RecordServerDeregistration`; a nil
receiver returns immediately. -/
def RecordServerDeregistration (m : MCPMetrics) (serverName : GoStr) : MCPMetrics :=
  match m with
  | none => none
  | some st =>
    let attrs := [AttrKV.mk LabelMCPServerName (.str (boundString serverName 64 (gb "unknown")))]
    some { st with serverDeregistrations := st.serverDeregistrations ++ [attrs] }

/-- Embedding of `(*MCPMetrics).RecordServerTransport`; a nil receiver
returns immediately. -/
def RecordServerTransport (m : MCPMetrics) (serverName eventType : GoStr) : MCPMetrics :=
  match m with
  | none => none
  | some st =>
    let attrs := [AttrKV.mk LabelMCPServerName (.str (boundString serverName 64 (gb "unknown"))),
                  AttrKV.mk LabelEventType (.str eventType)]
    some { st with serverTransport := st.serverTransport ++ [attrs] }

/-- Embedding of `(*MCPMetrics).RecordToolAvailability` (adds 1 when
available, 0 when not); a nil receiver returns immediately. -/
def RecordToolAvailability (m : MCPMetrics) (toolName : GoStr) (available : Bool) : MCPMetrics :=
  match m with
  | none => none
  | some st =>
    let attrs := [AttrKV.mk LabelToolName (.str (boundString toolName 64 (gb "unknown")))]
    let value : Int := if available then 1 else 0
    some { st with toolAvailability := st.toolAvailability ++ [(attrs, value)] }

/-- Embedding of `(*MCPMetrics).RecordToolDiscovery`; a nil receiver
returns immediately. -/
def RecordToolDiscovery (m : MCPMetrics) (toolName : GoStr) : MCPMetrics :=
  match m with
  | none => none
  | some st =>
    let attrs := [AttrKV.mk LabelToolName (.str (boundString toolName 64 (gb "unknown")))]
    some { st with toolDiscovery := st.toolDiscovery ++ [attrs] }

/-- Embedding of `(*MCPMetrics).RecordEnhancedError`; a nil receiver
returns immediately. -/
def RecordEnhancedError (m : MCPMetrics) (errorType : GoStr) : MCPMetrics :=
  match m with
  | none => none
  | some st =>
    let attrs := [AttrKV.mk LabelErrorType (.str errorType)]
    some { st with errorsByType := st.errorsByType ++ [attrs] }

/-! ## JSON values, Go maps, and classified errors -/

/-- A decoded JSON value (the `any` of Go's `map[string]any`). -/
inductive JsonVal where
  | null
  | boolean (b : Bool)
  | num (q : Int)
  | str (s : GoStr)
  | arr (elems : List JsonVal)
  | obj (fields : List (GoStr × JsonVal))

/-- A Go `map[string]any`, as the partial function from keys to values. -/
abbrev GoMap := GoStr → Option JsonVal

/-- Go's builtin `delete(m, key)`, as the map it leaves behind. -/
def mapDelete (m : GoMap) (key : GoStr) : GoMap :=
  fun k => if k = key then none else m k

/-- The error-kind taxonomy of the spec (§7). The service layer returns
errors carrying one of these kinds together with a message. -/
inductive ErrKind where
  | validation
  | notFound
  | disabled
  | connection
  | timeout
  | permission
  | toolError
  | registration
deriving DecidableEq

/-- A classified error returned by the service layer: its kind and its
`Error()` message. -/
structure GoError where
  kind : ErrKind
  msg : GoStr
deriving DecidableEq

/-! ## Spec-modelled service layer

The implementation of the `mcpService` collaborator (Server Registry,
Tool Catalog, Invocation Router) is not among the sources at hand; these
definitions are modelled from the spec (§3, §4.2–§4.4) and exercised by
the embedded handlers below, which are the sources' callers of the
service. -/

/-- A catalog entry: a tool with its owning server's name, its local
name, and its enabled flag (spec §3, **Tool**; the input schema is opaque
and omitted). -/
structure CatalogTool where
  serverName : GoStr
  localName : GoStr
  enabled : Bool
deriving DecidableEq

/-- An upstream server definition (spec §3, **UpstreamServer**; the
transport config is treated as opaque — discovery over it is supplied as
a function argument where needed). -/
structure ServerDef where
  name : GoStr
  description : GoStr
deriving DecidableEq

/-- The state the service layer maintains: the Server Registry's
definitions plus the Tool Catalog keyed by qualified name (spec §2,
components 2 and 3). -/
structure RegistryState where
  servers : List ServerDef
  catalog : List (GoStr × CatalogTool)
deriving DecidableEq

/-- An upstream transport call record: owning server name, local tool
name, and forwarded arguments. -/
structure UpstreamCall where
  serverName : GoStr
  localName : GoStr
  args : GoMap

/-- Modelled from the spec: `mcpService.InvokeTool` — the Invocation
Router's `Invoke(qualifiedName, args)` of §4.4, whose implementation is
not among the sources. Splits the qualified name on the reserved
separator (not-found/validation error when absent), looks the tool up in
the Catalog (not-found when absent, disabled error when present but not
enabled), then forwards to the owning server's Transport Client —
supplied as the function `transport` — passing its result or classified
error through. The returned list records every upstream transport call
made. -/
def Invoke (st : RegistryState) (transport : GoStr → GoStr → GoMap → Except GoError JsonVal)
    (qualifiedName : GoStr) (args : GoMap) :
    Except GoError JsonVal × List UpstreamCall :=
  let split := splitServerToolName qualifiedName
  if split.2.2 = false then
    (.error ⟨.notFound, gb "invalid tool name"⟩, [])
  else
    match st.catalog.lookup qualifiedName with
    | none => (.error ⟨.notFound, gb "tool not found"⟩, [])
    | some tool =>
      if tool.enabled = false then
        (.error ⟨.disabled, gb "tool is disabled"⟩, [])
      else
        (transport split.1 split.2.1 args, [⟨split.1, split.2.1, args⟩])

/-- Modelled from the spec: `mcpService.RegisterMcpServer` — the Server
Registry's `Register(def)` of §4.2, whose implementation is not among the
sources. Validates name uniqueness, discovers the initial tool set
through the supplied `discover` capability (the new server's Transport
Client), rejects duplicate local names (§4.3) and local names containing
the reserved separator (§3); on any failure the state is returned
unchanged — registration is atomic. On success the definition is
persisted and the Catalog gains the discovered tools, enabled by
default. -/
def Register (st : RegistryState) (d : ServerDef)
    (discover : ServerDef → Except GoError (List GoStr)) :
    Except GoError ServerDef × RegistryState :=
  if st.servers.any (fun srv => srv.name = d.name) then
    (.error ⟨.validation, gb "server already exists"⟩, st)
  else
    match discover d with
    | .error e => (.error ⟨.registration, e.msg⟩, st)
    | .ok localNames =>
      if localNames.Nodup then
        if localNames.any (fun l => stringsContains l serverToolNameSep) then
          (.error ⟨.validation, gb "local tool name contains reserved separator"⟩, st)
        else
          let newTools := localNames.map fun l =>
            (d.name ++ serverToolNameSep ++ l, CatalogTool.mk d.name l true)
          (.ok d, { servers := st.servers ++ [d], catalog := st.catalog ++ newTools })
      else
        (.error ⟨.validation, gb "duplicate tool name in server listing"⟩, st)

/-- Modelled from the spec: the Tool Catalog's
`SetEnabled(entityRef, enabled)` of §4.3, whose implementation is not
among the sources. Resolves the entity reference per §3 (a known server
name takes server scope, otherwise a qualified tool name), flips the
enabled flag on every matching tool, and returns the affected qualified
names; resolving to zero tools is a validation failure. -/
def SetEnabled (st : RegistryState) (entityRef : GoStr) (enabled : Bool) :
    Except GoError (List GoStr × RegistryState) :=
  if st.servers.any (fun srv => srv.name = entityRef) then
    if st.catalog.filter (fun kv => kv.2.serverName = entityRef) = [] then
      .error ⟨.validation, gb "server has no tools"⟩
    else
      .ok ((st.catalog.filter (fun kv => kv.2.serverName = entityRef)).map (·.1),
           { st with catalog := st.catalog.map fun kv =>
               if kv.2.serverName = entityRef then (kv.1, { kv.2 with enabled := enabled })
               else kv })
  else
    match st.catalog.lookup entityRef with
    | none => .error ⟨.validation, gb "entity does not resolve to any tool"⟩
    | some _ =>
      .ok ([entityRef],
           { st with catalog := st.catalog.map fun kv =>
               if kv.1 = entityRef then (kv.1, { kv.2 with enabled := enabled }) else kv })

/-- Modelled from the spec: `mcpService.EnableTools(entity)` —
`SetEnabled` with `enabled = true`. -/
def EnableTools (st : RegistryState) (entity : GoStr) :
    Except GoError (List GoStr × RegistryState) :=
  SetEnabled st entity true

/-- Modelled from the spec: `mcpService.DisableTools(entity)` —
`SetEnabled` with `enabled = false`. -/
def DisableTools (st : RegistryState) (entity : GoStr) :
    Except GoError (List GoStr × RegistryState) :=
  SetEnabled st entity false

/-- Modelled from the spec: `mcpService.GetTool` — the Tool Catalog's
`Get(qualifiedName)` of §4.3: exact lookup, failing with a not-found
error when absent. -/
def GetTool (st : RegistryState) (qualifiedName : GoStr) : Except GoError CatalogTool :=
  match st.catalog.lookup qualifiedName with
  | none => .error ⟨.notFound, gb "tool not found"⟩
  | some t => .ok t

/-! ## API handlers (`internal/api/mcp_tools.go`)

Each handler is embedded as a function from its request inputs (and the
service collaborator) to the HTTP response it writes. Metrics recording
(`s.metrics != nil` blocks) is an out-of-scope observability side effect
per spec §1 and does not alter control flow or responses, so it is
elided from the handler embeddings; the metrics methods themselves are
embedded separately above. -/

/-- Result of the invoke-tool handler: HTTP status, the error message
written (if any), the success payload (if any), and the calls the handler
made to `mcpService.InvokeTool`. -/
structure InvokeHandlerResult where
  status : Nat
  errorMsg : Option GoStr
  payload : Option JsonVal
  serviceCalls : List (GoStr × GoMap)

/-- Embedding of `invokeToolHandler`: the request body is the decode
outcome of the JSON body (`.error e` when `json.Decode` fails with
message `e`); `invokeTool` is `s.mcpService.InvokeTool`. Mirrors the
source: decode failure → 400; missing `name` key → 400; non-string
`name` → 400; otherwise `name` is deleted from the argument map, the
service is called, and its result is returned with 200 or its error with
500. -/
def invokeToolHandler (body : Except GoStr GoMap)
    (invokeTool : GoStr → GoMap → Except GoError JsonVal) : InvokeHandlerResult :=
  match body with
  | .error e =>
    ⟨400, some (gb "failed to decode request body: " ++ e), none, []⟩
  | .ok args =>
    match args (gb "name") with
    | none => ⟨400, some (gb "missing 'name' field in request body"), none, []⟩
    | some rawName =>
      match rawName with
      | .str name =>
        let args := mapDelete args (gb "name")
        match invokeTool name args with
        | .error err =>
          ⟨500, some (gb "failed to invoke tool: " ++ err.msg), none, [(name, args)]⟩
        | .ok resp => ⟨200, none, some resp, [(name, args)]⟩
      | _ => ⟨400, some (gb "'name' field must be a string"), none, []⟩

/-- Result of the enable/disable handlers: HTTP status, the error message
written (if any), and the affected-names list written on success. -/
structure EnableHandlerResult where
  status : Nat
  errorMsg : Option GoStr
  affected : Option (List GoStr)
deriving DecidableEq

/-- Embedding of `enableToolsHandler`: missing/empty `entity` query
parameter → 400; service failure → 500; success → 200 with the
`"enabled"` list. The handler returns the response together with the
service state it leaves behind. -/
def enableToolsHandler (st : RegistryState) (entity : GoStr) :
    EnableHandlerResult × RegistryState :=
  if entity = [] then
    (⟨400, some (gb "missing 'entity' query parameter"), none⟩, st)
  else
    match EnableTools st entity with
    | .error err =>
      (⟨500, some (gb "failed to enable tool(s): " ++ err.msg), none⟩, st)
    | .ok (enabledTools, st) => (⟨200, none, some enabledTools⟩, st)

/-- Embedding of `disableToolsHandler`: missing/empty `entity` query
parameter → 400; service failure → 500; success → 200 with the
`"disabled"` list. -/
def disableToolsHandler (st : RegistryState) (entity : GoStr) :
    EnableHandlerResult × RegistryState :=
  if entity = [] then
    (⟨400, some (gb "missing 'entity' query parameter"), none⟩, st)
  else
    match DisableTools st entity with
    | .error err =>
      (⟨500, some (gb "failed to disable tool(s): " ++ err.msg), none⟩, st)
    | .ok (disabledTools, st) => (⟨200, none, some disabledTools⟩, st)

/-- Result of the get-tool handler: HTTP status, the error message
written (if any), and the tool written on success. -/
structure GetToolHandlerResult where
  status : Nat
  errorMsg : Option GoStr
  tool : Option CatalogTool
deriving DecidableEq

/-- Embedding of `getToolHandler`: missing/empty `name` query parameter →
400; service failure → 500 with the service error's message; success →
200 with the tool. -/
def getToolHandler (st : RegistryState) (toolName : GoStr) : GetToolHandlerResult :=
  if toolName = [] then
    ⟨400, some (gb "missing 'name' query parameter"), none⟩
  else
    match GetTool st toolName with
    | .error err => ⟨500, some err.msg, none⟩
    | .ok tool => ⟨200, none, some tool⟩

/-- Whether an `Except` result is a success. -/
def exceptIsOk {α : Type} (r : Except GoError α) : Bool :=
  match r with
  | .ok _ => true
  | .error _ => false

/-! ## Properties of the qualified-name split -/

lemma serverToolNameSep_eq : serverToolNameSep = [58, 58] := by decide

/-- Go `strings.Cut` on a string without the separator leaves the string
whole: `(s, "", false)`. -/
lemma stringsCut_of_not_contains (q : GoStr)
    (h : stringsContains q serverToolNameSep = false) :
    stringsCut q serverToolNameSep = (q, [], false) := by
  induction q with
  | nil => simp [stringsCut, serverToolNameSep_eq, List.isPrefixOf]
  | cons c rest ih =>
    rw [stringsContains, decide_eq_false_iff_not] at h
    have hpre : serverToolNameSep.isPrefixOf (c :: rest) = false := by
      rw [Bool.eq_false_iff]
      intro hp
      exact h ((List.isPrefixOf_iff_prefix.mp hp).isInfix)
    have hrest : stringsContains rest serverToolNameSep = false := by
      rw [stringsContains, decide_eq_false_iff_not]
      intro hi
      exact h (hi.trans (List.suffix_cons c rest).isInfix)
    simp [stringsCut, hpre, ih hrest]

/-- Go `strings.Cut` splits `s ++ sep ++ l` exactly at the appended
separator whenever no occurrence of the separator starts inside
`s ++ sep` before position `|s|`: `s` must not contain `"::"` and must
not end in a `':'` byte (58). -/
lemma stringsCut_append_sep (s l : GoStr)
    (h1 : stringsContains s serverToolNameSep = false)
    (h2 : s.getLast? ≠ some 58) :
    stringsCut (s ++ serverToolNameSep ++ l) serverToolNameSep = (s, l, true) := by
  rw [serverToolNameSep_eq] at *
  induction s with
  | nil => simp [stringsCut, List.isPrefixOf]
  | cons c rest ih =>
    rw [stringsContains, decide_eq_false_iff_not] at h1
    have hpre : List.isPrefixOf [58, 58] (c :: (rest ++ [58, 58] ++ l)) = false := by
      rw [Bool.eq_false_iff]
      intro hp
      have hp' := List.isPrefixOf_iff_prefix.mp hp
      rw [List.cons_prefix_cons] at hp'
      obtain ⟨rfl, hp''⟩ := hp'
      match rest, h1, h2, hp'' with
      | [], h1, h2, hp'' => exact h2 rfl
      | d :: rest', h1, h2, hp'' =>
        simp only [List.cons_append] at hp''
        rw [List.cons_prefix_cons] at hp''
        obtain ⟨rfl, -⟩ := hp''
        exact h1 ⟨[], rest', rfl⟩
    have h1' : stringsContains rest [58, 58] = false := by
      rw [stringsContains, decide_eq_false_iff_not]
      intro hi
      exact h1 (hi.trans (List.suffix_cons c rest).isInfix)
    have h2' : rest.getLast? ≠ some 58 := by
      match rest, h2 with
      | [], _ => simp
      | d :: rest', h2 =>
        intro hx
        apply h2
        rw [List.getLast?_cons_cons]
        exact hx
    have ih' := ih h1' h2'
    rw [List.cons_append, List.cons_append]
    simp only [stringsCut, hpre, Bool.false_eq_true, if_false, ih']

/-! ## Claim theorems -/

/-- C1: for every qualified tool name present in the Catalog whose
enabled flag is false, `Invoke` returns the disabled-tool error and the
owning server's Transport Client is never called — the list of upstream
calls is empty. -/
theorem c1_invoke_disabled_tool_uncallable :
    ∀ (st : RegistryState) (transport : GoStr → GoStr → GoMap → Except GoError JsonVal)
      (q : GoStr) (args : GoMap) (tool : CatalogTool),
      (splitServerToolName q).2.2 = true →
      st.catalog.lookup q = some tool →
      tool.enabled = false →
      Invoke st transport q args = (.error ⟨.disabled, gb "tool is disabled"⟩, []) := by
  intro st transport q args tool hq hlook hdis
  unfold Invoke
  simp [hq, hlook, hdis]

/-- Witness for C1: a concrete catalog with the disabled tool
`srv::add`; `Invoke` returns the disabled error and records zero
upstream transport calls even though the transport would answer. -/
theorem c1_witness :
    Invoke ⟨[⟨gb "srv", gb "a server"⟩], [(gb "srv::add", ⟨gb "srv", gb "add", false⟩)]⟩
        (fun _ _ _ => .ok .null) (gb "srv::add") (fun _ => none)
      = (.error ⟨.disabled, gb "tool is disabled"⟩, []) :=
  c1_invoke_disabled_tool_uncallable _ _ _ _ ⟨gb "srv", gb "add", false⟩
    (by decide) (by decide) rfl

/-- C2: for every registration request on which tool discovery fails,
`Register` returns an error and commits no state — the registry and the
Catalog it leaves behind are exactly the input state, so the server
definition is not persisted and no tool of that server appears in the
Catalog. -/
theorem c2_register_discovery_failure_atomic :
    ∀ (st : RegistryState) (d : ServerDef)
      (discover : ServerDef → Except GoError (List GoStr)) (e : GoError),
      discover d = .error e →
      (Register st d discover).2 = st ∧
      exceptIsOk (Register st d discover).1 = false := by
  intro st d discover e h
  unfold Register
  by_cases hc : st.servers.any (fun srv => srv.name = d.name) <;>
    simp [hc, h, exceptIsOk]

/-- Witness for C2: registering `calc` against a discovery capability
that fails with a connection error leaves the empty state untouched and
yields no success. -/
theorem c2_witness :
    (Register ⟨[], []⟩ ⟨gb "calc", gb "a calculator"⟩
        (fun _ => .error ⟨.connection, gb "connection refused"⟩)).2 = ⟨[], []⟩ ∧
    exceptIsOk (Register ⟨[], []⟩ ⟨gb "calc", gb "a calculator"⟩
        (fun _ => .error ⟨.connection, gb "connection refused"⟩)).1 = false :=
  c2_register_discovery_failure_atomic _ _ _ ⟨.connection, gb "connection refused"⟩ rfl

/-- C6: a get-tool request naming a qualified name absent from the
Catalog yields the not-found error kind (distinct by construction from
every other kind of the taxonomy), and the handler reports it; naming a
present tool returns exactly that tool. -/
theorem c6_get_tool_not_found_or_present :
    ∀ (st : RegistryState) (q : GoStr) (t : CatalogTool),
      (st.catalog.lookup q = none →
        GetTool st q = .error ⟨.notFound, gb "tool not found"⟩ ∧
        (q ≠ [] → getToolHandler st q = ⟨500, some (gb "tool not found"), none⟩)) ∧
      (st.catalog.lookup q = some t →
        GetTool st q = .ok t ∧
        (q ≠ [] → getToolHandler st q = ⟨200, none, some t⟩)) := by
  intro st q t
  constructor
  · intro h
    have hg : GetTool st q = .error ⟨.notFound, gb "tool not found"⟩ := by
      unfold GetTool; rw [h]
    refine ⟨hg, fun hq => ?_⟩
    unfold getToolHandler
    simp [hq, hg]
  · intro h
    have hg : GetTool st q = .ok t := by
      unfold GetTool; rw [h]
    refine ⟨hg, fun hq => ?_⟩
    unfold getToolHandler
    simp [hq, hg]

/-- Witness for C6: in a one-tool catalog, getting `none::such` is
not-found and getting `srv::add` returns the tool. -/
theorem c6_witness :
    GetTool ⟨[], [(gb "srv::add", ⟨gb "srv", gb "add", true⟩)]⟩ (gb "none::such")
      = .error ⟨.notFound, gb "tool not found"⟩ ∧
    GetTool ⟨[], [(gb "srv::add", ⟨gb "srv", gb "add", true⟩)]⟩ (gb "srv::add")
      = .ok ⟨gb "srv", gb "add", true⟩ :=
  ⟨((c6_get_tool_not_found_or_present ⟨[], [(gb "srv::add", ⟨gb "srv", gb "add", true⟩)]⟩
      (gb "none::such") ⟨gb "srv", gb "add", true⟩).1 (by decide)).1,
   ((c6_get_tool_not_found_or_present ⟨[], [(gb "srv::add", ⟨gb "srv", gb "add", true⟩)]⟩
      (gb "srv::add") ⟨gb "srv", gb "add", true⟩).2 (by decide)).1⟩

/-- C10: every recording method of `MCPMetrics` is a no-op on a nil
receiver: it returns immediately with the nil receiver unchanged, so
callers without configured metrics never fail or change state by
recording. -/
theorem c10_nil_metrics_receiver_noop :
    ∀ (sv tn mth ev et : GoStr) (status : MetricStatus) (elapsed : Nat)
      (err : Option GoStr) (b : Bool),
      RecordTool none sv tn status elapsed err = none ∧
      RecordRequest none mth status elapsed err = none ∧
      RecordServerRegistration none sv b = none ∧
      RecordServerDeregistration none sv = none ∧
      RecordServerTransport none sv ev = none ∧
      RecordToolAvailability none tn b = none ∧
      RecordToolDiscovery none tn = none ∧
      RecordEnhancedError none et = none := by
  intro sv tn mth ev et status elapsed err b
  exact ⟨rfl, rfl, rfl, rfl, rfl, rfl, rfl, rfl⟩

/-- C8: the invoke handler deletes the `name` key from the decoded
argument map before forwarding — the forwarded map answers `none` for
`name`, agrees with the original map on every other key, and the service
is called exactly once with that map. -/
theorem c8_name_key_removed_before_forwarding :
    ∀ (args : GoMap) (k n : GoStr)
      (invokeTool : GoStr → GoMap → Except GoError JsonVal),
      (k ≠ gb "name" → mapDelete args (gb "name") k = args k) ∧
      mapDelete args (gb "name") (gb "name") = none ∧
      (args (gb "name") = some (.str n) →
        (invokeToolHandler (.ok args) invokeTool).serviceCalls
          = [(n, mapDelete args (gb "name"))]) := by
  intro args k n invokeTool
  refine ⟨fun hk => ?_, ?_, fun hn => ?_⟩
  · simp [mapDelete, hk]
  · simp [mapDelete]
  · cases h : invokeTool n (mapDelete args (gb "name")) <;>
      simp [invokeToolHandler, hn, h]

/-- Witness for C8: on a concrete request body with keys `name` and `a`,
the forwarded map drops `name`, keeps `a`, and is what the service
receives. -/
theorem c8_witness :
    (mapDelete
        (fun kk => if kk = gb "name" then some (.str (gb "srv::add"))
                   else if kk = gb "a" then some (.num 2) else none)
        (gb "name")) (gb "a")
      = (fun kk => if kk = gb "name" then some (.str (gb "srv::add"))
                   else if kk = gb "a" then some (.num 2) else none) (gb "a") ∧
    (invokeToolHandler
        (.ok (fun kk => if kk = gb "name" then some (.str (gb "srv::add"))
                        else if kk = gb "a" then some (.num 2) else none))
        (fun _ _ => .ok .null)).serviceCalls
      = [(gb "srv::add",
          mapDelete
            (fun kk => if kk = gb "name" then some (.str (gb "srv::add"))
                       else if kk = gb "a" then some (.num 2) else none)
            (gb "name"))] :=
  ⟨(c8_name_key_removed_before_forwarding _ (gb "a") (gb "srv::add")
      (fun _ _ => .ok .null)).1 (by decide),
   (c8_name_key_removed_before_forwarding _ (gb "a") (gb "srv::add")
      (fun _ _ => .ok .null)).2.2 rfl⟩

/-- C4: the invoke handler rejects a request whose body fails to decode,
lacks a `name` field, or whose `name` field is not a string with HTTP 400
and zero calls to `InvokeTool`; otherwise it calls `InvokeTool` once and
returns the upstream payload with 200 on success, or the classified
error's message with 500 otherwise. -/
theorem c4_invoke_handler_validates_then_delegates :
    ∀ (e : GoStr) (args : GoMap)
      (invokeTool : GoStr → GoMap → Except GoError JsonVal)
      (v : JsonVal) (n : GoStr) (r : JsonVal) (err : GoError),
      ((invokeToolHandler (.error e) invokeTool).status = 400 ∧
       (invokeToolHandler (.error e) invokeTool).serviceCalls = []) ∧
      (args (gb "name") = none →
        (invokeToolHandler (.ok args) invokeTool).status = 400 ∧
        (invokeToolHandler (.ok args) invokeTool).serviceCalls = []) ∧
      (args (gb "name") = some v → (∀ s, v ≠ .str s) →
        (invokeToolHandler (.ok args) invokeTool).status = 400 ∧
        (invokeToolHandler (.ok args) invokeTool).serviceCalls = []) ∧
      (args (gb "name") = some (.str n) →
        invokeTool n (mapDelete args (gb "name")) = .ok r →
        invokeToolHandler (.ok args) invokeTool
          = ⟨200, none, some r, [(n, mapDelete args (gb "name"))]⟩) ∧
      (args (gb "name") = some (.str n) →
        invokeTool n (mapDelete args (gb "name")) = .error err →
        invokeToolHandler (.ok args) invokeTool
          = ⟨500, some (gb "failed to invoke tool: " ++ err.msg), none,
             [(n, mapDelete args (gb "name"))]⟩) := by
  intro e args invokeTool v n r err
  refine ⟨⟨rfl, rfl⟩, fun h => ?_, fun h hns => ?_, fun h hok => ?_, fun h herr => ?_⟩
  · constructor <;> simp [invokeToolHandler, h]
  · cases v with
    | str s => exact absurd rfl (hns s)
    | null => constructor <;> simp [invokeToolHandler, h]
    | boolean b => constructor <;> simp [invokeToolHandler, h]
    | num q => constructor <;> simp [invokeToolHandler, h]
    | arr xs => constructor <;> simp [invokeToolHandler, h]
    | obj fs => constructor <;> simp [invokeToolHandler, h]
  · simp [invokeToolHandler, h, hok]
  · simp [invokeToolHandler, h, herr]

/-- Witness for C4: a decode failure is a 400 with no service call, and a
well-formed body reaches the service and yields its payload with 200. -/
theorem c4_witness :
    ((invokeToolHandler (.error (gb "unexpected EOF")) (fun _ _ => .ok .null)).status = 400 ∧
     (invokeToolHandler (.error (gb "unexpected EOF")) (fun _ _ => .ok .null)).serviceCalls = []) ∧
    invokeToolHandler (.ok (fun kk => if kk = gb "name" then some (.str (gb "srv::add")) else none))
        (fun _ _ => .ok (.str (gb "5")))
      = ⟨200, none, some (.str (gb "5")),
         [(gb "srv::add",
           mapDelete (fun kk => if kk = gb "name" then some (.str (gb "srv::add")) else none)
             (gb "name"))]⟩ :=
  ⟨(c4_invoke_handler_validates_then_delegates (gb "unexpected EOF") (fun _ => none)
      (fun _ _ => .ok .null) .null (gb "") .null ⟨.validation, gb ""⟩).1,
   (c4_invoke_handler_validates_then_delegates (gb "unexpected EOF")
      (fun kk => if kk = gb "name" then some (.str (gb "srv::add")) else none)
      (fun _ _ => .ok (.str (gb "5"))) .null (gb "srv::add") (.str (gb "5"))
      ⟨.validation, gb ""⟩).2.2.2.1 rfl rfl⟩

/-- A successful `SetEnabled` always reports at least one affected tool:
resolving to zero tools is rejected as a validation failure. -/
lemma setEnabled_ok_names_ne_nil (st : RegistryState) (e : GoStr) (en : Bool)
    (names : List GoStr) (st' : RegistryState)
    (h : SetEnabled st e en = .ok (names, st')) : names ≠ [] := by
  unfold SetEnabled at h
  by_cases hs : st.servers.any (fun srv => srv.name = e)
  · rw [if_pos hs] at h
    by_cases ha : st.catalog.filter (fun kv => kv.2.serverName = e) = []
    · rw [if_pos ha] at h
      exact absurd h (by simp)
    · rw [if_neg ha] at h
      injection h with h'
      have h1 : (st.catalog.filter (fun kv => kv.2.serverName = e)).map (·.1) = names :=
        congrArg Prod.fst h'
      intro hn
      apply ha
      rw [hn] at h1
      exact List.map_eq_nil_iff.mp h1
  · rw [if_neg hs] at h
    cases hl : st.catalog.lookup e with
    | none => rw [hl] at h; exact absurd h (by simp)
    | some t =>
      rw [hl] at h
      injection h with h'
      have h1 : ([e] : List GoStr) = names := congrArg Prod.fst h'
      rw [← h1]
      simp

/-- Every `SetEnabled` failure is a validation failure. -/
lemma setEnabled_error_validation (st : RegistryState) (e : GoStr) (en : Bool)
    (err : GoError) (h : SetEnabled st e en = .error err) : err.kind = .validation := by
  unfold SetEnabled at h
  by_cases hs : st.servers.any (fun srv => srv.name = e)
  · rw [if_pos hs] at h
    by_cases ha : st.catalog.filter (fun kv => kv.2.serverName = e) = []
    · rw [if_pos ha] at h
      injection h with h'
      rw [← h']
    · rw [if_neg ha] at h
      exact absurd h (by simp)
  · rw [if_neg hs] at h
    cases hl : st.catalog.lookup e with
    | none =>
      rw [hl] at h
      injection h with h'
      rw [← h']
    | some t =>
      rw [hl] at h
      exact absurd h (by simp)

/-- C5: an enable or disable request with a non-empty entity reference
resolving to at least one tool succeeds with exactly the service's list
of affected qualified names; an empty entity reference, or one that
resolves to zero tools, yields a validation error (the service error
kind is validation, the handler answers 400 or 500) and no success
response. -/
theorem c5_enable_disable_handlers :
    ∀ (st st' : RegistryState) (entity : GoStr) (names : List GoStr) (err : GoError),
      (entity = [] →
        enableToolsHandler st entity
          = (⟨400, some (gb "missing 'entity' query parameter"), none⟩, st) ∧
        disableToolsHandler st entity
          = (⟨400, some (gb "missing 'entity' query parameter"), none⟩, st)) ∧
      (entity ≠ [] → EnableTools st entity = .ok (names, st') →
        enableToolsHandler st entity = (⟨200, none, some names⟩, st') ∧ names ≠ []) ∧
      (entity ≠ [] → EnableTools st entity = .error err →
        err.kind = .validation ∧
        enableToolsHandler st entity
          = (⟨500, some (gb "failed to enable tool(s): " ++ err.msg), none⟩, st)) ∧
      (entity ≠ [] → DisableTools st entity = .ok (names, st') →
        disableToolsHandler st entity = (⟨200, none, some names⟩, st') ∧ names ≠ []) ∧
      (entity ≠ [] → DisableTools st entity = .error err →
        err.kind = .validation ∧
        disableToolsHandler st entity
          = (⟨500, some (gb "failed to disable tool(s): " ++ err.msg), none⟩, st)) := by
  intro st st' entity names err
  refine ⟨fun he => ?_, fun he hok => ?_, fun he herr => ?_, fun he hok => ?_,
          fun he herr => ?_⟩
  · constructor <;> simp [enableToolsHandler, disableToolsHandler, he]
  · exact ⟨by simp [enableToolsHandler, he, hok],
           setEnabled_ok_names_ne_nil st entity true names st' hok⟩
  · exact ⟨setEnabled_error_validation st entity true err herr,
           by simp [enableToolsHandler, he, herr]⟩
  · exact ⟨by simp [disableToolsHandler, he, hok],
           setEnabled_ok_names_ne_nil st entity false names st' hok⟩
  · exact ⟨setEnabled_error_validation st entity false err herr,
           by simp [disableToolsHandler, he, herr]⟩

/-- Witness for C5: enabling by the server reference `srv` flips its one
tool and reports exactly `[srv::add]`; the unknown reference `nope`
resolves to nothing and fails as a validation error. -/
theorem c5_witness :
    (enableToolsHandler
        ⟨[⟨gb "srv", gb "d"⟩], [(gb "srv::add", ⟨gb "srv", gb "add", false⟩)]⟩ (gb "srv")
      = (⟨200, none, some [gb "srv::add"]⟩,
         ⟨[⟨gb "srv", gb "d"⟩], [(gb "srv::add", ⟨gb "srv", gb "add", true⟩)]⟩) ∧
     ([gb "srv::add"] : List GoStr) ≠ []) ∧
    ((GoError.mk .validation (gb "entity does not resolve to any tool")).kind
        = .validation ∧
     enableToolsHandler
        ⟨[⟨gb "srv", gb "d"⟩], [(gb "srv::add", ⟨gb "srv", gb "add", false⟩)]⟩ (gb "nope")
      = (⟨500, some (gb "failed to enable tool(s): "
            ++ gb "entity does not resolve to any tool"), none⟩,
         ⟨[⟨gb "srv", gb "d"⟩], [(gb "srv::add", ⟨gb "srv", gb "add", false⟩)]⟩)) :=
  ⟨(c5_enable_disable_handlers _ _ (gb "srv") [gb "srv::add"]
      ⟨.validation, gb ""⟩).2.1 (by decide) rfl,
   (c5_enable_disable_handlers
      ⟨[⟨gb "srv", gb "d"⟩], [(gb "srv::add", ⟨gb "srv", gb "add", false⟩)]⟩
      ⟨[⟨gb "srv", gb "d"⟩], [(gb "srv::add", ⟨gb "srv", gb "add", false⟩)]⟩
      (gb "nope") []
      ⟨.validation, gb "entity does not resolve to any tool"⟩).2.2.1
      (by decide) rfl⟩

/-- C9: `boundString s 64 "unknown"` always yields a non-empty string of
byte length at most 64 — the fallback for the empty string, the first 64
bytes when longer than 64, the string itself otherwise — and `RecordTool`
labels server and tool names with exactly these bounded values. -/
theorem c9_boundString_bounds_labels :
    ∀ (s sv tn : GoStr) (status : MetricStatus) (err : Option GoStr),
      boundString s 64 (gb "unknown") ≠ [] ∧
      (boundString s 64 (gb "unknown")).length ≤ 64 ∧
      (s = [] → boundString s 64 (gb "unknown") = gb "unknown") ∧
      (s.length > 64 → boundString s 64 (gb "unknown") = s.take 64) ∧
      (s ≠ [] → s.length ≤ 64 → boundString s 64 (gb "unknown") = s) ∧
      (recordToolAttrs sv tn status err).take 2
        = [⟨LabelMCPServerName, .str (boundString sv 64 (gb "unknown"))⟩,
           ⟨LabelToolName, .str (boundString tn 64 (gb "unknown"))⟩] := by
  intro s sv tn status err
  refine ⟨?_, ?_, fun h1 => ?_, fun h2 => ?_, fun h1 h2 => ?_, ?_⟩
  · unfold boundString
    by_cases h1 : s = []
    · simp [h1]
      decide
    · by_cases h2 : s.length > 64 <;> simp [h1, h2]
  · unfold boundString
    by_cases h1 : s = []
    · simp [h1]
      decide
    · by_cases h2 : s.length > 64 <;> simp [h1, h2]
      omega
  · simp [boundString, h1]
  · have h1 : s ≠ [] := by
      intro hnil
      rw [hnil] at h2
      simp at h2
    simp [boundString, h1, h2]
  · simp [boundString, h1]
    omega
  · unfold recordToolAttrs
    cases err <;> rfl

/-- Witness for C9: the fallback case, the truncation case (a 70-byte
name), and the pass-through case, each through the theorem. -/
theorem c9_witness :
    boundString (gb "") 64 (gb "unknown") = gb "unknown" ∧
    boundString (gb "0123456789012345678901234567890123456789012345678901234567890123456789")
        64 (gb "unknown")
      = (gb "0123456789012345678901234567890123456789012345678901234567890123456789").take 64 ∧
    boundString (gb "calc") 64 (gb "unknown") = gb "calc" :=
  ⟨(c9_boundString_bounds_labels (gb "") (gb "") (gb "") (gb "") none).2.2.1 rfl,
   (c9_boundString_bounds_labels
      (gb "0123456789012345678901234567890123456789012345678901234567890123456789")
      (gb "") (gb "") (gb "") none).2.2.2.1 (by decide),
   (c9_boundString_bounds_labels (gb "calc") (gb "") (gb "") (gb "") none).2.2.2.2.1
      (by decide) (by decide)⟩

/-- C7 (amended): the classifier maps a nil error to `"none"` and every
non-nil error to exactly one of the eight categories
`{none, timeout, connection, permission, not_found, invalid, cancelled,
unknown}` — not the spec taxonomy, which it neither covers (`validation`,
`disabled`, `tool-error` are never produced) nor stays within (`invalid`,
`cancelled`, `unknown` are produced). The substring rules hold
case-insensitively with `timeout` taking precedence, then `connection`,
then `permission`, then `not found`. -/
theorem c7_error_classifier_categories :
    ∀ (msg : GoStr),
      getErrorType none = gb "none" ∧
      (stringsContains (stringsToLower msg) (gb "timeout") = true →
        getErrorType (some msg) = gb "timeout") ∧
      (stringsContains (stringsToLower msg) (gb "timeout") = false →
       stringsContains (stringsToLower msg) (gb "connection") = true →
        getErrorType (some msg) = gb "connection") ∧
      (stringsContains (stringsToLower msg) (gb "timeout") = false →
       stringsContains (stringsToLower msg) (gb "connection") = false →
       stringsContains (stringsToLower msg) (gb "permission") = true →
        getErrorType (some msg) = gb "permission") ∧
      (stringsContains (stringsToLower msg) (gb "timeout") = false →
       stringsContains (stringsToLower msg) (gb "connection") = false →
       stringsContains (stringsToLower msg) (gb "permission") = false →
       stringsContains (stringsToLower msg) (gb "not found") = true →
        getErrorType (some msg) = gb "not_found") ∧
      getErrorType (some msg) ∈
        [gb "timeout", gb "connection", gb "permission", gb "not_found",
         gb "invalid", gb "cancelled", gb "unknown"] := by
  intro msg
  refine ⟨rfl, fun h1 => ?_, fun h1 h2 => ?_, fun h1 h2 h3 => ?_,
          fun h1 h2 h3 h4 => ?_, ?_⟩
  · simp [getErrorType, h1, ErrorTypeTimeout]
  · simp [getErrorType, h1, h2, ErrorTypeConnection]
  · simp [getErrorType, h1, h2, h3, ErrorTypePermission]
  · simp [getErrorType, h1, h2, h3, h4]
  · show (if stringsContains (stringsToLower msg) (gb "timeout") = true then ErrorTypeTimeout
      else if stringsContains (stringsToLower msg) (gb "connection") = true then
        ErrorTypeConnection
      else if stringsContains (stringsToLower msg) (gb "permission") = true then
        ErrorTypePermission
      else if stringsContains (stringsToLower msg) (gb "not found") = true then gb "not_found"
      else if stringsContains (stringsToLower msg) (gb "invalid") = true then gb "invalid"
      else if stringsContains (stringsToLower msg) (gb "cancelled") = true then gb "cancelled"
      else ErrorTypeUnknown) ∈
        [gb "timeout", gb "connection", gb "permission", gb "not_found",
         gb "invalid", gb "cancelled", gb "unknown"]
    split_ifs <;>
      simp [ErrorTypeTimeout, ErrorTypeConnection, ErrorTypePermission, ErrorTypeUnknown]

/-- Counterexample for C7: the error message `"boom"` is classified as
`"unknown"`, which is not one of the seven kinds of the spec taxonomy
(validation, not-found, disabled, connection, timeout, permission,
tool-error), so the classifier does not map every error into that
taxonomy. -/
theorem c7_counterexample :
    getErrorType (some (gb "boom")) = gb "unknown" ∧
    getErrorType (some (gb "boom")) ∉
      [gb "validation", gb "not-found", gb "disabled", gb "connection",
       gb "timeout", gb "permission", gb "tool-error"] := by
  constructor
  · decide
  · decide

/-- Witness for C7: case-insensitive classification of a message holding
both `TIMEOUT` and `Connection`, with timeout taking precedence, and the
connection rule once timeout is absent. -/
theorem c7_witness :
    getErrorType (some (gb "Connection TIMEOUT while dialing")) = gb "timeout" ∧
    getErrorType (some (gb "Connection refused")) = gb "connection" :=
  ⟨(c7_error_classifier_categories (gb "Connection TIMEOUT while dialing")).2.1
      (by decide),
   (c7_error_classifier_categories (gb "Connection refused")).2.2.1
      (by decide) (by decide)⟩

/-- C3 (amended): splitting on the reserved separator inverts the
qualified-name construction for every server name `s` that does not
contain `"::"` **and does not end in a `':'` byte** — then
`splitServerToolName (s ++ "::" ++ l) = (s, l, true)` — and on every
string without the separator it returns `found = false`, which `Invoke`
reports as a not-found error without any upstream call. -/
theorem c3_split_inverts_construction :
    ∀ (s l q : GoStr) (st : RegistryState)
      (transport : GoStr → GoStr → GoMap → Except GoError JsonVal) (args : GoMap),
      (stringsContains s serverToolNameSep = false → s.getLast? ≠ some 58 →
        splitServerToolName (s ++ serverToolNameSep ++ l) = (s, l, true)) ∧
      (stringsContains q serverToolNameSep = false →
        splitServerToolName q = (q, [], false) ∧
        Invoke st transport q args = (.error ⟨.notFound, gb "invalid tool name"⟩, [])) := by
  intro s l q st transport args
  constructor
  · intro h1 h2
    exact stringsCut_append_sep s l h1 h2
  · intro h
    have hq : splitServerToolName q = (q, [], false) := stringsCut_of_not_contains q h
    refine ⟨hq, ?_⟩
    unfold Invoke
    simp [hq]

/-- Counterexample for C3: the server name `"a:"` contains no `"::"`,
yet `splitServerToolName ("a:" ++ "::" ++ "b")` cuts at the first
occurrence of `"::"` — which starts inside `"a:" ++ "::"` — and returns
`("a", ":b", true)`, not `("a:", "b", true)` as the claim requires. -/
theorem c3_counterexample :
    stringsContains (gb "a:") serverToolNameSep = false ∧
    splitServerToolName (gb "a:" ++ serverToolNameSep ++ gb "b") = (gb "a", gb ":b", true) ∧
    splitServerToolName (gb "a:" ++ serverToolNameSep ++ gb "b") ≠ (gb "a:", gb "b", true) := by
  refine ⟨by decide, by decide, by decide⟩

/-- Witness for C3: the round trip on `srv`/`add` and the
separator-free string `plain`, the latter driving `Invoke` to the
not-found error with zero upstream calls. -/
theorem c3_witness :
    splitServerToolName (gb "srv" ++ serverToolNameSep ++ gb "add")
      = (gb "srv", gb "add", true) ∧
    splitServerToolName (gb "plain") = (gb "plain", [], false) ∧
    Invoke ⟨[], []⟩ (fun _ _ _ => .ok .null) (gb "plain") (fun _ => none)
      = (.error ⟨.notFound, gb "invalid tool name"⟩, []) :=
  ⟨(c3_split_inverts_construction (gb "srv") (gb "add") (gb "plain") ⟨[], []⟩
      (fun _ _ _ => .ok .null) (fun _ => none)).1 (by decide) (by decide),
   ((c3_split_inverts_construction (gb "srv") (gb "add") (gb "plain") ⟨[], []⟩
      (fun _ _ _ => .ok .null) (fun _ => none)).2 (by decide)).1,
   ((c3_split_inverts_construction (gb "srv") (gb "add") (gb "plain") ⟨[], []⟩
      (fun _ _ _ => .ok .null) (fun _ => none)).2 (by decide)).2⟩

end MCPJungle
